import Mathlib

/-!
Verification development for the `fairbank-io/electrum` Go client.

The Go sources are shallowly embedded: pure helpers become Lean functions,
the mutex-guarded client state (`Client.counter`, `Client.subs`) becomes an
explicit `ClientState` record threaded through the operations (the mutex
serializes every access, so a sequence of operations is the faithful
picture of any concurrent interleaving), channels become identity tokens
plus explicit event lists, and Go's `error` results become `Option`/`Except`
values.  Handler closures are modelled by identity tokens (`Nat`), since the
properties under study concern which handler receives a frame, never what
the handler computes.
-/

namespace Electrum

/-- A JSON-like value, the shape of the dynamic `interface{}` fields
(`params`, `result`) carried by a decoded frame. -/
inductive Value where
  | null
  | str (s : String)
  | num (n : Int)
  | arr (xs : List Value)

/-- `rpcError` from data.go: the structured `error` member of a response. -/
structure RpcError where
  code : Int
  message : String
  deriving DecidableEq

/-- `response` from data.go.  A missing `id` decodes to Go's zero value `0`;
a missing `method` decodes to `""`; `params`/`result` are `nil` or a value;
`error` is `nil` or a structured RPC error. -/
structure Response where
  id : Int := 0
  method : String := ""
  params : Option Value := none
  result : Option Value := none
  error : Option RpcError := none

/-- `request` from data.go. -/
structure Request where
  id : Int
  method : String
  params : List String
  deriving DecidableEq

/-- `subscription` from client.go.  The `messages` channel is modelled by the
identity token `dest`; the `handler` closure by the identity token `handler`
(`none` for the ephemeral registration made by `syncRequest`, whose handler
field is Go's `nil`). -/
structure Subscription where
  method : String := ""
  params : List String := []
  dest : Nat := 0
  handler : Option Nat := none
  deriving DecidableEq

/-- The correlation table `Client.subs : map[int]*subscription`. -/
abbrev Table := List (Int × Subscription)

/-- Map lookup `c.subs[id]`. -/
def tableLookup : Table → Int → Option Subscription
  | [], _ => none
  | (k, s) :: rest, id => if id = k then some s else tableLookup rest id

/-- Map deletion `delete(c.subs, id)`. -/
def tableErase (t : Table) (id : Int) : Table :=
  t.filter (fun p => ¬ p.1 = id)

/-- Map assignment `c.subs[id] = sub` (insert or overwrite). -/
def tableInsert (t : Table) (id : Int) (s : Subscription) : Table :=
  (id, s) :: tableErase t id

/-- The mutex-guarded mutable state of `Client`: the request-id counter, the
correlation table, the protocol tag, and an allocator for fresh channel
identities (each Go `make(chan *response)` yields a new one). -/
structure ClientState where
  counter : Int := 0
  subs : Table := []
  protocol : String := "1.2"
  nextDest : Nat := 0
  deriving DecidableEq

/-- Protocol tag constants from client.go. -/
def Protocol10 : String := "1.0"

/-- Protocol tag `Protocol11`. -/
def Protocol11 : String := "1.1"

/-- Protocol tag `Protocol12`. -/
def Protocol12 : String := "1.2"

/-- The error values the embedded operations can produce: the exported
sentinel errors of client.go and network errors, plus `rpc m` for
`errors.New(res.Error.Message)` and `encodeFailed`/`ioError` for the two
failure sources inside `syncRequest`. -/
inductive ElectrumError where
  | deprecatedMethod
  | unavailableMethod
  | rejectedTx
  | unreachableHost
  | encodeFailed
  | ioError (e : String)
  | rpc (message : String)
  deriving DecidableEq

/-- `Client.req` (client.go): under the client mutex, build a request
carrying the current counter value and advance the counter.  Go replaces a
nil `params` slice with an empty one; in the embedding both are `[]`. -/
def ClientState.req (c : ClientState) (name : String) (params : List String) :
    Request × ClientState :=
  ({ id := c.counter, method := name, params := params },
   { c with counter := c.counter + 1 })

/-- `Client.removeSubscription` (client.go): if the id is present, close its
messages channel and delete the entry; otherwise do nothing. -/
def removeSubscription (c : ClientState) (id : Int) : ClientState :=
  match tableLookup c.subs id with
  | some _ => { c with subs := tableErase c.subs id }
  | none => c

/-- Environment oracle for one `syncRequest` run: whether `req.encode()`
succeeds, whether `transport.sendMessage` fails (and with what), and the
reply the dispatch loop eventually delivers on the per-request channel. -/
structure SyncEnv where
  encodeOk : Bool := true
  sendErr : Option String := none
  reply : Response := {}

/-- `Client.syncRequest` (client.go): register an ephemeral subscription for
the request id (a bare messages channel), then encode and send; the deferred
`removeSubscription(req.Id)` runs on every return path — encode error, send
error, and normal reply alike. -/
def syncRequest (c : ClientState) (r : Request) (env : SyncEnv) :
    Except ElectrumError Response × ClientState :=
  let pending : Subscription := { dest := c.nextDest }
  let c₁ : ClientState :=
    { c with subs := tableInsert c.subs r.id pending, nextDest := c.nextDest + 1 }
  if ¬ env.encodeOk then
    (.error .encodeFailed, removeSubscription c₁ r.id)
  else
    match env.sendErr with
    | some e => (.error (.ioError e), removeSubscription c₁ r.id)
    | none => (.ok env.reply, removeSubscription c₁ r.id)

/-- Ids assigned by a sequence of request-building operations
(`call`/`subscribe` both allocate through `Client.req`; the client mutex
serializes concurrent callers, so every interleaving is some sequence). -/
def reqIds : ClientState → List (String × List String) → List Int
  | _, [] => []
  | c, (name, ps) :: rest =>
      let (r, c') := c.req name ps
      r.id :: reqIds c' rest

theorem tableLookup_erase_self (t : Table) (id : Int) :
    tableLookup (tableErase t id) id = none := by
  induction t with
  | nil => rfl
  | cons p rest ih =>
      by_cases h : p.1 = id
      · simpa [tableErase, h] using ih
      · simpa [tableErase, tableLookup, h, Ne.symm h] using ih

theorem tableLookup_remove_self (c : ClientState) (id : Int) :
    tableLookup (removeSubscription c id).subs id = none := by
  unfold removeSubscription
  cases h : tableLookup c.subs id with
  | none => simpa using h
  | some s => simpa using tableLookup_erase_self c.subs id

theorem reqIds_eq_range (c : ClientState) (ops : List (String × List String)) :
    reqIds c ops = (List.range ops.length).map (fun i : Nat => c.counter + (i : Int)) := by
  induction ops generalizing c with
  | nil => rfl
  | cons op rest ih =>
      simp only [reqIds, ClientState.req, ih, List.length_cons,
        List.range_succ_eq_map, List.map_cons, List.map_map]
      refine congrArg₂ _ (by simp) (List.map_congr_left ?_)
      intro i _
      simp only [Function.comp]
      push_cast
      ring

/-- One iteration of the dispatch loop in `Client.handleMessages` for a
decoded frame: a frame with a non-empty `method` is handed to every table
entry whose `method` matches (`for _, sub := range c.subs` with an equality
guard — fan-out, not first match); any other frame is routed by id to the
single entry registered under `resp.id`, and dropped silently when the id
has no entry.  The returned list is the set of table entries whose messages
channel receives the frame. -/
def dispatchTargets (subs : Table) (resp : Response) : Table :=
  if ¬ resp.method = "" then
    subs.filter (fun p => p.2.method = resp.method)
  else
    match tableLookup subs resp.id with
    | some s => [(resp.id, s)]
    | none => []

/-- Claim C3: after `syncRequest` returns — with a reply, an encode error,
or a send error — the id allocated for the request is absent from the
correlation table; the deferred `removeSubscription` runs on every path. -/
theorem syncRequest_no_correlation_leak (c : ClientState) (r : Request) (env : SyncEnv) :
    tableLookup (syncRequest c r env).2.subs r.id = none := by
  unfold syncRequest
  by_cases h : env.encodeOk
  · cases hs : env.sendErr <;> simp [h, hs, tableLookup_remove_self]
  · simp [h, tableLookup_remove_self]

/-- Claim C4: over any sequence of request-building operations on a fresh
client (concurrent invocations are serialized by the client mutex inside
`Client.req`), the assigned ids are exactly `0, 1, 2, …` in assignment
order: they start at 0, are strictly increasing, are pairwise distinct, and
are never reused within the session (the counter only grows). -/
theorem assigned_ids_start_at_zero_monotonic_unique (ops : List (String × List String)) :
    reqIds ({} : ClientState) ops = (List.range ops.length).map (fun i : Nat => (i : Int))
    ∧ (reqIds ({} : ClientState) ops).Pairwise (· < ·)
    ∧ (reqIds ({} : ClientState) ops).Nodup
    ∧ (ops = [] ∨ (reqIds ({} : ClientState) ops).head? = some 0) := by
  have hids : reqIds ({} : ClientState) ops
      = (List.range ops.length).map (fun i : Nat => (i : Int)) := by
    rw [reqIds_eq_range]
    apply List.map_congr_left
    intro i _
    show (0 : Int) + (i : Int) = (i : Int)
    ring
  have hpw : (reqIds ({} : ClientState) ops).Pairwise (· < ·) := by
    rw [hids]
    exact List.Pairwise.map _ (fun a b h => by exact_mod_cast h)
      (List.pairwise_lt_range ops.length)
  refine ⟨hids, hpw, hpw.imp ne_of_lt, ?_⟩
  cases ops with
  | nil => exact Or.inl rfl
  | cons op rest =>
      right
      rw [hids]
      simp [List.range_succ_eq_map]

/-- Claim C5: routing of a decoded frame by the dispatch loop.  A frame with
a non-empty method is delivered to exactly the table entries registered for
that method (all of them, and no entry with a different method); a frame
with an empty method is delivered to exactly the one entry registered under
its id, and is dropped silently when its id has no entry. -/
theorem dispatch_fanout_and_exactly_once (subs : Table) (resp : Response) :
    (¬ resp.method = "" →
      ∀ p : Int × Subscription,
        p ∈ dispatchTargets subs resp ↔ p ∈ subs ∧ p.2.method = resp.method)
    ∧ (resp.method = "" →
      (∀ s, tableLookup subs resp.id = some s →
        dispatchTargets subs resp = [(resp.id, s)])
      ∧ (tableLookup subs resp.id = none → dispatchTargets subs resp = [])) := by
  constructor
  · intro h p
    simp [dispatchTargets, h, List.mem_filter]
  · intro h
    constructor
    · intro s hs
      simp [dispatchTargets, h, hs]
    · intro hs
      simp [dispatchTargets, h, hs]

/-- A two-subscription table: one standing subscription for block headers
and one for address activity, with distinct delivery channels and handlers. -/
def subsExample : Table :=
  [(0, { method := "blockchain.headers.subscribe", dest := 0, handler := some 0 }),
   (1, { method := "blockchain.address.subscribe", params := ["addr"],
         dest := 1, handler := some 1 })]

/-- Witness for claim C5: a concrete push frame for the headers method is
delivered to the headers subscription of `subsExample`. -/
theorem dispatch_fanout_and_exactly_once_witness :
    (0, { method := "blockchain.headers.subscribe", dest := 0,
          handler := some 0 : Subscription })
      ∈ dispatchTargets subsExample { method := "blockchain.headers.subscribe" } :=
  ((dispatch_fanout_and_exactly_once subsExample
      { method := "blockchain.headers.subscribe" }).1 (by decide) _).mpr
    ⟨by decide, by decide⟩

/-- `Client.UTXOAddress` (client.go, deprecated since protocol 1.0): returns
`ErrDeprecatedMethod` at once.  The triple is (result, final client state,
requests handed to the transport). -/
def UTXOAddress (c : ClientState) (utxo : String) :
    Except ElectrumError String × ClientState × List Request :=
  (.error .deprecatedMethod, c, [])

/-- `Client.BlockChunk` (client.go, deprecated since protocol 1.2): returns
`ErrDeprecatedMethod` at once. -/
def BlockChunk (c : ClientState) (index : Int) :
    Except ElectrumError Value × ClientState × List Request :=
  (.error .deprecatedMethod, c, [])

/-- `Client.NotifyBlockNums` (client.go, deprecated since protocol 1.0):
`return nil, ErrDeprecatedMethod` is its first statement, so the
subscription-setup code that follows it in the Go source is unreachable. -/
def NotifyBlockNums (c : ClientState) :
    Except ElectrumError Nat × ClientState × List Request :=
  (.error .deprecatedMethod, c, [])

/-- Claim C10: the three deprecated operations fail immediately with
`ErrDeprecatedMethod`: nothing is encoded or sent, the id counter does not
advance, and the correlation table is untouched. -/
theorem deprecated_methods_fail_without_side_effects
    (c : ClientState) (utxo : String) (index : Int) :
    (UTXOAddress c utxo).1 = .error .deprecatedMethod
    ∧ (UTXOAddress c utxo).2.1 = c ∧ (UTXOAddress c utxo).2.2 = []
    ∧ (BlockChunk c index).1 = .error .deprecatedMethod
    ∧ (BlockChunk c index).2.1 = c ∧ (BlockChunk c index).2.2 = []
    ∧ (NotifyBlockNums c).1 = .error .deprecatedMethod
    ∧ (NotifyBlockNums c).2.1 = c ∧ (NotifyBlockNums c).2.2 = [] :=
  ⟨rfl, rfl, rfl, rfl, rfl, rfl, rfl, rfl, rfl⟩

/-- Closed/open status of the two `done` channels involved in shutdown:
`Client.done` and `transport.done`. -/
structure DoneChannels where
  clientDone : Bool := false
  transportDone : Bool := false
  deriving DecidableEq

/-- The Go runtime panic raised by `close` on an already-closed channel. -/
inductive GoPanic where
  | closeOfClosedChannel
  deriving DecidableEq

/-- `transport.close`: `close(t.done)`; in Go, closing a closed channel
panics. -/
def transportClose (d : DoneChannels) : Except GoPanic DoneChannels :=
  if d.transportDone then .error .closeOfClosedChannel
  else .ok { d with transportDone := true }

/-- `Client.Close` (client.go): `close(c.done)` — unconditionally — followed
by `c.transport.close()`. -/
def clientClose (d : DoneChannels) : Except GoPanic DoneChannels :=
  if d.clientDone then .error .closeOfClosedChannel
  else transportClose { d with clientDone := true }

/-- Claim C2 counterexample: on a freshly-opened client the first `Close`
returns normally having closed both done channels, but a second `Close`
panics (Go: "close of closed channel") instead of being a no-op or a
defined idempotent return. -/
theorem close_twice_panics :
    clientClose ({} : DoneChannels) = .ok { clientDone := true, transportDone := true }
    ∧ (clientClose ({} : DoneChannels) >>= clientClose) = .error .closeOfClosedChannel :=
  ⟨rfl, rfl⟩

/-- Claim C2 (amended): `Close` is safe to invoke exactly once.  From any
state in which neither done channel has been closed, the first `Close`
succeeds and closes both; invoking `Close` again on the resulting state
panics with Go's close-of-closed-channel runtime error. -/
theorem close_safe_exactly_once (d : DoneChannels)
    (hc : d.clientDone = false) (ht : d.transportDone = false) :
    clientClose d = .ok { clientDone := true, transportDone := true }
    ∧ clientClose { clientDone := true, transportDone := true }
        = .error .closeOfClosedChannel := by
  cases d
  simp_all [clientClose, transportClose]

/-- Witness for the amended claim C2, at the fresh state. -/
theorem close_safe_exactly_once_witness :
    clientClose ({} : DoneChannels) = .ok { clientDone := true, transportDone := true }
    ∧ clientClose { clientDone := true, transportDone := true }
        = .error .closeOfClosedChannel :=
  close_safe_exactly_once {} rfl rfl

/-- `ConnectionState` from the transport source: the state values announced
on the transport's `state` channel. -/
inductive ConnState where
  | Ready
  | Disconnected
  | Reconnecting
  | Reconnected
  | Closed
  deriving DecidableEq

/-- Outcome of one `bufio.Reader.ReadBytes('\n')` call inside `listen`. -/
inductive ReadEvent where
  | eof
  | readErr (e : String)
  | line (l : String)
  deriving DecidableEq

/-- The inputs that drive the transport: the client closing `t.done`, the
reader loop completing one iteration with a given read outcome, and the
5-second retry ticker firing with a given `connect` outcome. -/
inductive TEvent where
  | closeDone
  | read (re : ReadEvent)
  | tick (dialOk : Bool)
  deriving DecidableEq

/-- Observable actions of the transport: announcements on the `state`
channel, items on the `errors`/`messages` channels, dial attempts against
the configured address, closing the live conn, and writes to it. -/
inductive TOut where
  | ann (s : ConnState)
  | errOut (e : String)
  | msgOut (l : String)
  | dial (addr : String)
  | connClose
  | write (m : String)
  deriving DecidableEq

/-- Which loop of the transport is running: the reader (`listen`), the retry
loop spawned by `reconnect`, or nothing after the done branch exited. -/
inductive TPhase where
  | listening
  | reconnecting
  | closedPhase
  deriving DecidableEq

/-- Transport state: the running loop, the mutex-guarded `ready` flag, the
status of `t.done`, and the dial address from `t.opts`. -/
structure TState where
  phase : TPhase
  ready : Bool
  doneClosed : Bool
  address : String
  deriving DecidableEq

/-- The retry interval hard-coded in `reconnect`:
`time.NewTicker(5 * time.Second)`. -/
def reconnectIntervalSeconds : Nat := 5

/-- One transition of the transport, combining `listen` and `reconnect`:

* `closeDone` — `transport.close()` merely closes `t.done`; no loop reacts
  until it next polls.
* `read re` (reader iteration, only while `listen` runs): the `select` takes
  the done branch when `t.done` is closed (close conn, announce `Closed`,
  exit — terminal); otherwise on EOF it announces `Disconnected` and enters
  `reconnect` (close conn, clear `ready`, announce `Reconnecting`); other
  read errors go to the `errors` channel and lines to `messages`.
* `tick ok` (retry ticker, only while reconnecting): dial the same address;
  on success install the new conn (`setup` sets `ready`), announce
  `Reconnected`, and start `listen` on the new stream (which first announces
  `Ready`); on failure just keep looping — the retry loop reads nothing but
  the ticker, in particular it never consults `t.done`. -/
def tstep (t : TState) (e : TEvent) : TState × List TOut :=
  match e with
  | .closeDone => ({ t with doneClosed := true }, [])
  | .read re =>
    match t.phase with
    | .listening =>
      if t.doneClosed then
        ({ t with phase := .closedPhase }, [.connClose, .ann .Closed])
      else
        match re with
        | .eof =>
            ({ t with phase := .reconnecting, ready := false },
             [.ann .Disconnected, .connClose, .ann .Reconnecting])
        | .readErr e => (t, [.errOut e])
        | .line l => (t, [.msgOut l])
    | _ => (t, [])
  | .tick ok =>
    match t.phase with
    | .reconnecting =>
      if ok then
        ({ t with phase := .listening, ready := true },
         [.dial t.address, .ann .Reconnected, .ann .Ready])
      else
        (t, [.dial t.address])
    | _ => (t, [])

/-- Run the transport over a sequence of events, collecting the outputs. -/
def trun (t : TState) : List TEvent → TState × List TOut
  | [] => (t, [])
  | e :: es =>
      let step := tstep t e
      let next := trun step.1 es
      (next.1, step.2 ++ next.2)

/-- `getTransport`: dial once, set up the conn (`ready := true`), and start
`listen`, whose first action announces `Ready`. -/
def initTransport (addr : String) : TState × List TOut :=
  ({ phase := .listening, ready := true, doneClosed := false, address := addr },
   [.ann .Ready])

/-- `transport.sendMessage`: under the mutex, fail with `ErrUnreachableHost`
when `ready` is unset — before touching the conn; otherwise attempt the
write, whose success is decided by the oracle `writeOk`. -/
def sendMessage (t : TState) (msg : String) (writeOk : Bool) :
    Except ElectrumError Unit × List TOut :=
  if ¬ t.ready then (.error .unreachableHost, [])
  else if writeOk then (.ok (), [.write msg])
  else (.error (.ioError "write error"), [.write msg])

theorem tstep_not_ready_invariant (t : TState) (e : TEvent)
    (h : t.phase = .reconnecting → t.ready = false) :
    (tstep t e).1.phase = .reconnecting → (tstep t e).1.ready = false := by
  obtain ⟨ph, rd, dc, ad⟩ := t
  cases e with
  | closeDone => simpa [tstep] using h
  | read re => cases ph <;> cases dc <;> cases re <;> simp_all [tstep]
  | tick ok => cases ph <;> cases ok <;> simp_all [tstep]

theorem trun_not_ready_invariant (es : List TEvent) (t : TState)
    (h : t.phase = .reconnecting → t.ready = false) :
    (trun t es).1.phase = .reconnecting → (trun t es).1.ready = false := by
  induction es generalizing t with
  | nil => exact h
  | cons e es ih => exact ih (tstep t e).1 (tstep_not_ready_invariant t e h)

/-- Claim C6: `sendMessage` invoked while the transport is not ready — the
condition that holds from the `Disconnected`/`Reconnecting` announcements
until a redial succeeds — returns `ErrUnreachableHost` at once, attempting
no write; and on every run of the transport from a fresh connection, the
reconnecting phase indeed has the ready flag unset. -/
theorem send_unreachable_fails_fast :
    (∀ (t : TState) (msg : String) (writeOk : Bool), t.ready = false →
      sendMessage t msg writeOk = (.error .unreachableHost, []))
    ∧ ∀ (addr : String) (es : List TEvent),
        (trun (initTransport addr).1 es).1.phase = .reconnecting →
        (trun (initTransport addr).1 es).1.ready = false := by
  constructor
  · intro t msg writeOk h
    simp [sendMessage, h]
  · intro addr es
    exact trun_not_ready_invariant es (initTransport addr).1 (by simp [initTransport])

/-- Witness for claim C6: a transport mid-reconnection rejects a send with
no write, and the state reached by a fresh transport after an EOF is in the
reconnecting phase with the ready flag unset. -/
theorem send_unreachable_fails_fast_witness :
    sendMessage ⟨.reconnecting, false, false, "h:50001"⟩ "frame" true
      = (.error .unreachableHost, [])
    ∧ (trun (initTransport "h:50001").1 [.read .eof]).1.ready = false :=
  ⟨send_unreachable_fails_fast.1 ⟨.reconnecting, false, false, "h:50001"⟩ "frame" true rfl,
   send_unreachable_fails_fast.2 "h:50001" [.read .eof] (by decide)⟩

/-- Claim C7 counterexample: the retry loop ignores the session close.
From a fresh transport, after an EOF and then a close of `t.done`, the
transport nevertheless keeps dialing (two further dial attempts here) and
announces `Reconnected` — closing the session did not stop reconnection,
and no `Closed` announcement has been made. -/
theorem close_does_not_stop_reconnect :
    (trun (initTransport "srv:50002").1 [.read .eof, .closeDone]).1.doneClosed = true
    ∧ (trun (initTransport "srv:50002").1 [.read .eof, .closeDone]).1.phase = .reconnecting
    ∧ (trun (initTransport "srv:50002").1
         [.read .eof, .closeDone, .tick false, .tick true]).2
      = [.ann .Disconnected, .connClose, .ann .Reconnecting,
         .dial "srv:50002", .dial "srv:50002", .ann .Reconnected, .ann .Ready] := by
  refine ⟨rfl, rfl, ?_⟩
  rfl

/-- Claim C7 (amended): after EOF the reader announces `Disconnected`, closes
the dead conn and announces `Reconnecting`; the retry loop then dials the
same address once per 5-second tick with no retry cap, independent of the
done channel; a successful dial installs the new stream, announces
`Reconnected` and resumes the reader (which announces `Ready`); the reader's
done branch announces `Closed` and is terminal — but a close during the
retry loop is only honored after a dial succeeds. -/
theorem reconnect_retries_until_success (t : TState) (re : ReadEvent) (n : Nat) :
    (t.phase = .listening → t.doneClosed = false →
      tstep t (.read .eof)
        = ({ t with phase := .reconnecting, ready := false },
           [.ann .Disconnected, .connClose, .ann .Reconnecting]))
    ∧ (t.phase = .reconnecting →
      tstep t (.tick false) = (t, [.dial t.address]))
    ∧ (t.phase = .reconnecting →
      trun t (List.replicate n (.tick false)) = (t, List.replicate n (.dial t.address)))
    ∧ (t.phase = .reconnecting →
      tstep t (.tick true)
        = ({ t with phase := .listening, ready := true },
           [.dial t.address, .ann .Reconnected, .ann .Ready]))
    ∧ (t.phase = .listening → t.doneClosed = true →
      tstep t (.read re) = ({ t with phase := .closedPhase }, [.connClose, .ann .Closed]))
    ∧ (∀ es : List TEvent, t.phase = .closedPhase → t.doneClosed = true →
      trun t es = (t, []))
    ∧ reconnectIntervalSeconds = 5 := by
  have hfail : t.phase = .reconnecting → tstep t (.tick false) = (t, [.dial t.address]) := by
    intro hp
    simp [tstep, hp]
  refine ⟨?_, hfail, ?_, ?_, ?_, ?_, rfl⟩
  · intro hp hd
    simp [tstep, hp, hd]
  · intro hp
    induction n with
    | zero => rfl
    | succ m ih => simp [List.replicate_succ, trun, hfail hp, ih]
  · intro hp
    simp [tstep, hp]
  · intro hp hd
    cases re <;> simp [tstep, hp, hd]
  · intro es hp hd
    induction es with
    | nil => rfl
    | cons e es ih =>
        have hstep : tstep t e = (t, []) := by
          cases e with
          | closeDone =>
              simp only [tstep]
              cases t
              simp_all
          | read re => simp [tstep, hp]
          | tick ok => simp [tstep, hp]
        simp [trun, hstep, ih]

/-- Witness for the amended claim C7 at concrete states: the EOF step, three
fruitless retries, and the terminal closed phase. -/
theorem reconnect_retries_until_success_witness :
    tstep ⟨.listening, true, false, "h:1"⟩ (.read .eof)
      = (⟨.reconnecting, false, false, "h:1"⟩,
         [.ann .Disconnected, .connClose, .ann .Reconnecting])
    ∧ trun ⟨.reconnecting, false, false, "h:1"⟩ (List.replicate 3 (.tick false))
      = (⟨.reconnecting, false, false, "h:1"⟩, List.replicate 3 (.dial "h:1"))
    ∧ trun ⟨.closedPhase, true, true, "h:1"⟩ [.tick true, .read .eof]
      = (⟨.closedPhase, true, true, "h:1"⟩, []) :=
  ⟨(reconnect_retries_until_success ⟨.listening, true, false, "h:1"⟩ .eof 3).1 rfl rfl,
   (reconnect_retries_until_success ⟨.reconnecting, false, false, "h:1"⟩ .eof 3).2.2.1 rfl,
   (reconnect_retries_until_success ⟨.closedPhase, true, true, "h:1"⟩ .eof 3).2.2.2.2.2.1
     [.tick true, .read .eof] rfl rfl⟩

/-- Result of a Go operation that may return a value, return an error, or
panic (a failed type assertion such as `res.Result.(string)`). -/
inductive Outcome (α : Type) where
  | ok (a : α)
  | err (e : ElectrumError)
  | panicked
  deriving DecidableEq

/-- `Client.ServerPing` (client.go): on protocol 1.2 it runs `server.ping`
through `syncRequest` and returns only the transport-level error — the
decoded response, and with it any server-reported RPC error, is discarded
(`_, err := c.syncRequest(...)`); on earlier protocols it returns
`ErrUnavailableMethod`. -/
def ServerPing (c : ClientState) (env : SyncEnv) : Option ElectrumError × ClientState :=
  if c.protocol = Protocol12 then
    let rc := c.req "server.ping" []
    match syncRequest rc.2 rc.1 env with
    | (.ok _, c₂) => (none, c₂)
    | (.error e, c₂) => (some e, c₂)
  else (some .unavailableMethod, c)

/-- `Client.BroadcastTransaction` (client.go): run
`blockchain.transaction.broadcast`; surface transport errors, then a
server-reported RPC error as `errors.New(res.Error.Message)`; with no error
and a nil result return `ErrRejectedTx`; otherwise type-assert the result to
a string and return it (any other shape panics). -/
def BroadcastTransaction (c : ClientState) (hex : String) (env : SyncEnv) :
    Outcome String × ClientState :=
  let rc := c.req "blockchain.transaction.broadcast" [hex]
  match syncRequest rc.2 rc.1 env with
  | (.error e, c₂) => (.err e, c₂)
  | (.ok resp, c₂) =>
    match resp.error with
    | some e => (.err (.rpc e.message), c₂)
    | none =>
      match resp.result with
      | none => (.err .rejectedTx, c₂)
      | some (.str s) => (.ok s, c₂)
      | some _ => (.panicked, c₂)

/-- Claim C8 (code bug): whenever encode and send succeed on a protocol-1.2
client, `ServerPing` reports no error — regardless of the reply, so in
particular when the reply carries a server-reported RPC error such as
"unknown method".  The repo's own Protocol 1.2 `ServerPing` test expects
exactly that message to be surfaced as the returned error. -/
theorem serverPing_drops_rpc_error (c : ClientState) (env : SyncEnv)
    (hp : c.protocol = Protocol12) (he : env.encodeOk = true) (hs : env.sendErr = none) :
    (ServerPing c env).1 = none := by
  simp [ServerPing, hp, syncRequest, he, hs]

/-- Witness for claim C8: the concrete failing input — a protocol-1.2 client
whose server answers `server.ping` with the RPC error "unknown method";
`ServerPing` returns no error even though the reply carries one. -/
theorem serverPing_drops_rpc_error_witness :
    (ServerPing { protocol := "1.2" }
      { reply := { id := 0, error := some { code := -32601, message := "unknown method" } } }).1
      = none :=
  serverPing_drops_rpc_error _ _ rfl rfl rfl

/-- Claim C9 counterexample: `BroadcastTransaction` performs no substring
match on the textual result.  A reply whose textual result is the very word
"rejected" is returned as a successful broadcast, while a reply carrying no
result at all — nothing to match — yields `ErrRejectedTx`. -/
theorem broadcast_no_substring_match :
    (BroadcastTransaction {} "00ff"
        { reply := { id := 0, result := some (.str "rejected") } }).1
      = .ok "rejected"
    ∧ (BroadcastTransaction {} "00ff" { reply := { id := 0 } }).1 = .err .rejectedTx :=
  ⟨rfl, rfl⟩

/-- Claim C9 (amended): when encode and send succeed, `BroadcastTransaction`
returns `ErrRejectedTx` exactly when the reply carries neither a structured
error nor a result; a textual result is returned verbatim as success, and a
structured error is surfaced as its own message — the rejection inference
reads the absence of the result field, not any substring of its text. -/
theorem broadcast_rejection_from_nil_result (c : ClientState) (hex : String) (env : SyncEnv)
    (he : env.encodeOk = true) (hs : env.sendErr = none) :
    ((BroadcastTransaction c hex env).1 = .err .rejectedTx
      ↔ env.reply.error = none ∧ env.reply.result = none)
    ∧ (∀ s, env.reply.error = none → env.reply.result = some (.str s) →
        (BroadcastTransaction c hex env).1 = .ok s)
    ∧ (∀ e, env.reply.error = some e →
        (BroadcastTransaction c hex env).1 = .err (.rpc e.message)) := by
  refine ⟨?_, ?_, ?_⟩
  · cases herr : env.reply.error with
    | some e => simp [BroadcastTransaction, syncRequest, he, hs, herr]
    | none =>
        cases hres : env.reply.result with
        | none => simp [BroadcastTransaction, syncRequest, he, hs, herr, hres]
        | some v => cases v <;> simp [BroadcastTransaction, syncRequest, he, hs, herr, hres]
  · intro s herr hres
    simp [BroadcastTransaction, syncRequest, he, hs, herr, hres]
  · intro e herr
    simp [BroadcastTransaction, syncRequest, he, hs, herr]

/-- Witness for the amended claim C9: a reply with neither error nor result
is reported as a rejected transaction. -/
theorem broadcast_rejection_from_nil_result_witness :
    (BroadcastTransaction {} "00" { reply := {} }).1 = .err .rejectedTx :=
  (broadcast_rejection_from_nil_result {} "00" { reply := {} } rfl rfl).1.mpr ⟨rfl, rfl⟩

theorem tableLookup_erase_ne (t : Table) (j k : Int) (h : ¬ j = k) :
    tableLookup (tableErase t j) k = tableLookup t k := by
  induction t with
  | nil => rfl
  | cons p rest ih =>
      by_cases hp : p.1 = j
      · have hk : ¬ k = p.1 := fun hkk => h (by rw [← hp, hkk])
        rw [show tableErase (p :: rest) j = tableErase rest j by simp [tableErase, hp]]
        rw [ih]
        simp [tableLookup, hk]
      · rw [show tableErase (p :: rest) j = p :: tableErase rest j by
          simp [tableErase, hp]]
        by_cases hk : k = p.1
        · simp [tableLookup, hk]
        · simp [tableLookup, hk, ih]

theorem tableLookup_insert_self (t : Table) (j : Int) (s : Subscription) :
    tableLookup (tableInsert t j s) j = some s := by
  simp [tableInsert, tableLookup]

theorem tableLookup_insert_ne (t : Table) (j k : Int) (s : Subscription) (h : ¬ j = k) :
    tableLookup (tableInsert t j s) k = tableLookup t k := by
  have hk : ¬ k = j := fun hkk => h hkk.symm
  simp only [tableInsert, tableLookup, if_neg hk]
  exact tableLookup_erase_ne t j k h

theorem tableLookup_mem (t : Table) (k : Int) (s : Subscription) :
    tableLookup t k = some s → (k, s) ∈ t := by
  induction t with
  | nil => intro h; exact absurd h (by simp [tableLookup])
  | cons p rest ih =>
      obtain ⟨p1, p2⟩ := p
      intro h
      simp only [tableLookup] at h
      by_cases hk : k = p1
      · subst hk
        rw [if_pos rfl] at h
        injection h with h2
        subst h2
        exact List.mem_cons_self _ _
      · rw [if_neg hk] at h
        exact List.mem_cons_of_mem _ (ih h)

theorem removeSubscription_counter (c : ClientState) (id : Int) :
    (removeSubscription c id).counter = c.counter := by
  unfold removeSubscription
  cases h : tableLookup c.subs id <;> simp

theorem removeSubscription_nextDest (c : ClientState) (id : Int) :
    (removeSubscription c id).nextDest = c.nextDest := by
  unfold removeSubscription
  cases h : tableLookup c.subs id <;> simp

theorem tableLookup_remove_ne (c : ClientState) (j k : Int) (h : ¬ j = k) :
    tableLookup (removeSubscription c j).subs k = tableLookup c.subs k := by
  unfold removeSubscription
  cases hl : tableLookup c.subs j with
  | none => rfl
  | some s => simpa using tableLookup_erase_ne c.subs j k h

/-- Modelled from the spec: one step of the resumption protocol of §4.3 for
a single active subscription — the client-side resumption handler triggered
by the transport's `Reconnected` announcement is not among the provided
sources (only the transport that emits the announcement and the
registration helpers are).  Per the spec: remove the subscription's old
table entry (closing its delivery source), allocate a fresh id through the
session's id allocator, and re-register and re-send using the same method,
params and handler (the messages channel is remade, so `dest` is fresh). -/
def resumeOne (c : ClientState) (id : Int) (sub : Subscription) : ClientState × Request :=
  let c₁ := removeSubscription c id
  let rc := c₁.req sub.method sub.params
  ({ rc.2 with
      subs := tableInsert rc.2.subs rc.1.id { sub with dest := rc.2.nextDest },
      nextDest := rc.2.nextDest + 1 },
   rc.1)

/-- Modelled from the spec: resumption applied to each listed subscription
in turn, collecting the re-sent subscribe requests. -/
def resumeLoop : ClientState → Table → ClientState × List Request
  | c, [] => (c, [])
  | c, p :: rest =>
      let step := resumeOne c p.1 p.2
      let next := resumeLoop step.1 rest
      (next.1, step.2 :: next.2)

/-- Modelled from the spec: the whole resumption pass of §4.3, run once the
reconnected server answers a probe — every currently active subscription
(a table entry with a non-empty method; method-less entries are the
ephemeral registrations of pending synchronous calls) is re-registered
under a fresh id with the same method, params and handler. -/
def resumeSubscriptions (c : ClientState) : ClientState × List Request :=
  resumeLoop c (c.subs.filter (fun p => ¬ p.2.method = ""))

theorem resumeLoop_cons (c : ClientState) (p : Int × Subscription) (rest : Table) :
    resumeLoop c (p :: rest)
      = ((resumeLoop (resumeOne c p.1 p.2).1 rest).1,
         (resumeOne c p.1 p.2).2 :: (resumeLoop (resumeOne c p.1 p.2).1 rest).2) := rfl

theorem resumeOne_spec (c : ClientState) (id : Int) (sub : Subscription) :
    (resumeOne c id sub).1.counter = c.counter + 1
    ∧ (resumeOne c id sub).2
        = { id := c.counter, method := sub.method, params := sub.params }
    ∧ tableLookup (resumeOne c id sub).1.subs c.counter
        = some { sub with dest := c.nextDest }
    ∧ ∀ k, ¬ k = id → ¬ k = c.counter →
        tableLookup (resumeOne c id sub).1.subs k = tableLookup c.subs k := by
  have hc := removeSubscription_counter c id
  have hd := removeSubscription_nextDest c id
  refine ⟨?_, ?_, ?_, ?_⟩
  · simp [resumeOne, ClientState.req, hc]
  · simp [resumeOne, ClientState.req, hc]
  · simp only [resumeOne, ClientState.req]
    rw [hc, hd]
    exact tableLookup_insert_self _ _ _
  · intro k hki hkc
    simp only [resumeOne, ClientState.req]
    rw [hc]
    rw [tableLookup_insert_ne _ _ _ _ (fun h => hkc (by rw [h]))]
    exact tableLookup_remove_ne c id k (fun h => hki (by rw [h]))

theorem resumeLoop_counter_mono (pending : Table) (c : ClientState) :
    c.counter ≤ (resumeLoop c pending).1.counter := by
  induction pending generalizing c with
  | nil => exact le_refl _
  | cons p rest ih =>
      rw [resumeLoop_cons]
      calc c.counter ≤ (resumeOne c p.1 p.2).1.counter := by
            rw [(resumeOne_spec c p.1 p.2).1]
            linarith
        _ ≤ (resumeLoop (resumeOne c p.1 p.2).1 rest).1.counter := ih _

theorem resumeLoop_preserves (pending : Table) (c : ClientState) (k : Int) (s : Subscription)
    (hl : tableLookup c.subs k = some s) (hk : k < c.counter)
    (hp : ∀ p ∈ pending, ¬ p.1 = k) :
    tableLookup (resumeLoop c pending).1.subs k = some s := by
  induction pending generalizing c with
  | nil => exact hl
  | cons p rest ih =>
      rw [resumeLoop_cons]
      have hki : ¬ k = p.1 := fun h => hp p (List.mem_cons_self _ _) h.symm
      have hkc : ¬ k = c.counter := ne_of_lt hk
      refine ih (resumeOne c p.1 p.2).1 ?_ ?_ ?_
      · rw [(resumeOne_spec c p.1 p.2).2.2.2 k hki hkc]
        exact hl
      · rw [(resumeOne_spec c p.1 p.2).1]
        linarith
      · exact fun q hq => hp q (List.mem_cons_of_mem _ hq)

theorem resumeLoop_registers (pending : Table) (c : ClientState)
    (id₀ : Int) (sub₀ : Subscription)
    (hmem : (id₀, sub₀) ∈ pending) (hlt : ∀ p ∈ pending, p.1 < c.counter) :
    ∃ id' d, c.counter ≤ id'
      ∧ tableLookup (resumeLoop c pending).1.subs id' = some { sub₀ with dest := d }
      ∧ ({ id := id', method := sub₀.method, params := sub₀.params : Request }
          ∈ (resumeLoop c pending).2) := by
  induction pending generalizing c with
  | nil => cases hmem
  | cons p rest ih =>
      rw [resumeLoop_cons]
      rcases List.mem_cons.mp hmem with heq | hmem'
      · refine ⟨c.counter, c.nextDest, le_refl _, ?_, ?_⟩
        · refine resumeLoop_preserves rest (resumeOne c p.1 p.2).1 _ _ ?_ ?_ ?_
          · rw [← heq] at *
            exact (resumeOne_spec c id₀ sub₀).2.2.1
          · rw [(resumeOne_spec c p.1 p.2).1]
            linarith
          · intro q hq
            exact ne_of_lt (hlt q (List.mem_cons_of_mem _ hq))
        · rw [← heq]
          rw [(resumeOne_spec c id₀ sub₀).2.1]
          exact List.mem_cons_self _ _
      · have hlt' : ∀ q ∈ rest, q.1 < (resumeOne c p.1 p.2).1.counter := by
          intro q hq
          rw [(resumeOne_spec c p.1 p.2).1]
          have := hlt q (List.mem_cons_of_mem _ hq)
          linarith
        obtain ⟨id', d, h1, h2, h3⟩ := ih (resumeOne c p.1 p.2).1 hmem' hlt'
        refine ⟨id', d, ?_, h2, List.mem_cons_of_mem _ h3⟩
        calc c.counter ≤ (resumeOne c p.1 p.2).1.counter := by
              rw [(resumeOne_spec c p.1 p.2).1]
              linarith
          _ ≤ id' := h1

/-- Claim C1: on resumption after a `Reconnected` announcement, every active
subscription is re-registered under a fresh id (one no prior entry ever
used), with the same method, params and handler, the matching subscribe
request is re-sent, and a subsequent push for the subscription's method is
again delivered to the same handler — without the caller re-subscribing.
(The well-formedness hypothesis — every table id was allocated below the
counter — holds for every state the client builds, since ids come from
`Client.req`.) -/
theorem resumption_reregisters_under_fresh_id (c : ClientState)
    (hwf : ∀ p ∈ c.subs, p.1 < c.counter)
    (id₀ : Int) (sub₀ : Subscription)
    (hmem : (id₀, sub₀) ∈ c.subs) (hact : ¬ sub₀.method = "") :
    ∃ id' d,
      c.counter ≤ id'
      ∧ (∀ p ∈ c.subs, ¬ p.1 = id')
      ∧ tableLookup (resumeSubscriptions c).1.subs id' = some { sub₀ with dest := d }
      ∧ ({ id := id', method := sub₀.method, params := sub₀.params : Request }
          ∈ (resumeSubscriptions c).2)
      ∧ ∀ resp : Response, resp.method = sub₀.method →
          ∃ q ∈ dispatchTargets (resumeSubscriptions c).1.subs resp,
            q.2.handler = sub₀.handler ∧ q.1 = id' := by
  have hmemf : (id₀, sub₀) ∈ c.subs.filter (fun p => ¬ p.2.method = "") :=
    List.mem_filter.mpr ⟨hmem, by simp [hact]⟩
  have hltf : ∀ p ∈ c.subs.filter (fun p => ¬ p.2.method = ""), p.1 < c.counter :=
    fun p hp => hwf p (List.mem_filter.mp hp).1
  obtain ⟨id', d, h1, h2, h3⟩ := resumeLoop_registers _ c id₀ sub₀ hmemf hltf
  refine ⟨id', d, h1, ?_, h2, h3, ?_⟩
  · intro p hp he
    exact absurd (he ▸ hwf p hp) (not_lt.mpr h1)
  · intro resp hresp
    have hne : ¬ resp.method = "" := by
      rw [hresp]
      exact hact
    refine ⟨(id', { sub₀ with dest := d }), ?_, rfl, rfl⟩
    rw [dispatchTargets, if_pos hne]
    exact List.mem_filter.mpr ⟨tableLookup_mem _ _ _ h2, by simp [hresp]⟩

/-- A client mid-session: one standing headers subscription (id 0), one
pending synchronous call (id 1), two ids handed out so far. -/
def resumeExampleClient : ClientState :=
  { counter := 2,
    subs := [(0, { method := "blockchain.headers.subscribe", dest := 0, handler := some 7 }),
             (1, { dest := 1 })],
    nextDest := 2 }

/-- Witness for claim C1: the headers subscription of `resumeExampleClient`
survives resumption under a fresh id with its method, params and handler
intact, its subscribe request re-sent, and pushes still routed to it. -/
theorem resumption_reregisters_under_fresh_id_witness :
    ∃ id' d,
      resumeExampleClient.counter ≤ id'
      ∧ (∀ p ∈ resumeExampleClient.subs, ¬ p.1 = id')
      ∧ tableLookup (resumeSubscriptions resumeExampleClient).1.subs id'
          = some { method := "blockchain.headers.subscribe", dest := d, handler := some 7 }
      ∧ ({ id := id', method := "blockchain.headers.subscribe", params := [] : Request }
          ∈ (resumeSubscriptions resumeExampleClient).2)
      ∧ ∀ resp : Response, resp.method = "blockchain.headers.subscribe" →
          ∃ q ∈ dispatchTargets (resumeSubscriptions resumeExampleClient).1.subs resp,
            q.2.handler = some 7 ∧ q.1 = id' :=
  resumption_reregisters_under_fresh_id resumeExampleClient (by decide) 0
    { method := "blockchain.headers.subscribe", dest := 0, handler := some 7 }
    (by decide) (by decide)

end Electrum
